import Mathlib

/-!
Verification of the configuration manager of `gpt-load`
(`internal/config/manager.go`): data model, primitive parsers, validator,
and the round-robin upstream selector, shallowly embedded in Lean 4.

Machine integers: Go `int` fields are modelled as `Int`; the `uint64`
round-robin counter is modelled as a `Nat` kept below `2 ^ 64`, with every
update taken modulo `2 ^ 64` exactly where the Go code can overflow.
Calls into the Go standard library are modelled explicitly (`strconv.Atoi`,
`strings.ToLower`, `strings.TrimSpace`, `strings.Split`) or abstracted as a
boolean oracle parameter (`net/url.Parse`, whose success/failure the
validator consumes as a black box).
-/

/-- The empty string, used for Go's zero value of a string field. -/
def emptyString : String := ""

/-- Go struct `types.ServerConfig` (fields as read and written by `manager.go`). -/
structure ServerConfig where
  Port : Int
  Host : String
  ReadTimeout : Int
  WriteTimeout : Int
  IdleTimeout : Int
  GracefulShutdownTimeout : Int
deriving DecidableEq, Repr

/-- Go struct `types.KeysConfig`. -/
structure KeysConfig where
  APIKeys : List String
  StartIndex : Int
  BlacklistThreshold : Int
  MaxRetries : Int
deriving DecidableEq, Repr

/-- Go struct `types.OpenAIConfig`. `BaseURL` is the per-call selected URL; it is the
Go zero value (empty string) until `GetOpenAIConfig` fills it. -/
structure OpenAIConfig where
  BaseURL : String
  BaseURLs : List String
  RequestTimeout : Int
  ResponseTimeout : Int
  IdleConnTimeout : Int
deriving DecidableEq, Repr

/-- Go struct `types.AuthConfig`. -/
structure AuthConfig where
  Key : String
  Enabled : Bool
deriving DecidableEq, Repr

/-- Go struct `types.CORSConfig`. -/
structure CORSConfig where
  Enabled : Bool
  AllowedOrigins : List String
  AllowedMethods : List String
  AllowedHeaders : List String
  AllowCredentials : Bool
deriving DecidableEq, Repr

/-- Go struct `types.PerformanceConfig`. -/
structure PerformanceConfig where
  MaxConcurrentRequests : Int
  EnableGzip : Bool
deriving DecidableEq, Repr

/-- Go struct `types.LogConfig`. -/
structure LogConfig where
  Level : String
  Format : String
  EnableFile : Bool
  FilePath : String
  EnableRequest : Bool
deriving DecidableEq, Repr

/-- Go struct `config.Config`: the application configuration snapshot. -/
structure Config where
  Server : ServerConfig
  Keys : KeysConfig
  OpenAI : OpenAIConfig
  Auth : AuthConfig
  CORS : CORSConfig
  Performance : PerformanceConfig
  Log : LogConfig
deriving DecidableEq, Repr

/-- Go struct `config.Constants`. -/
structure Constants where
  MinPort : Int
  MaxPort : Int
  MinTimeout : Int
  DefaultTimeout : Int
  DefaultMaxSockets : Int
  DefaultMaxFreeSockets : Int
deriving DecidableEq, Repr

/-- The value `config.DefaultConstants`. -/
def DefaultConstants : Constants :=
  { MinPort := 1
    MaxPort := 65535
    MinTimeout := 1
    DefaultTimeout := 30
    DefaultMaxSockets := 50
    DefaultMaxFreeSockets := 10 }

/-- Go struct `config.Manager`: the validated snapshot plus the `uint64` round-robin
counter (an invariant of the embedding keeps it below `2 ^ 64`). -/
structure Manager where
  config : Config
  roundRobinCounter : Nat
deriving DecidableEq, Repr

/-- The modulus of Go's `uint64` arithmetic, `2 ^ 64`. -/
def u64Mod : Nat := 2 ^ 64

/-! Primitive parsers (`manager.go`, helper functions) -/

/-- Model of Go `strconv.Atoi`: an optional sign followed by one or more
ASCII digits, rejecting anything else; values outside the `int64` range
make `Atoi` return a non-nil error (`ErrRange`), modelled as `none`. -/
def goAtoi (s : String) : Option Int :=
  let core : List Char → Bool → Option Int := fun digits neg =>
    if digits = [] ∨ ¬ digits.all Char.isDigit then none
    else
      let n : Nat := digits.foldl (fun a c => a * 10 + (c.toNat - 48)) 0
      let v : Int := if neg then -(n : Int) else (n : Int)
      if v < -(2 ^ 63) ∨ (2 ^ 63) - 1 < v then none else some v
  match s.toList with
  | [] => none
  | '+' :: rest => core rest false
  | '-' :: rest => core rest true
  | l => core l false

/-- Model of Go `strings.ToLower` (ASCII case folding; no character outside
ASCII lower-cases onto the ASCII letters the boolean parser compares with,
so restricting the fold to ASCII does not change any comparison below). -/
def goToLower (s : String) : String := String.mk (s.toList.map Char.toLower)

/-- Model of Go `unicode.IsSpace`: exactly the Unicode White_Space set. -/
def goIsSpace (c : Char) : Bool :=
  (9 ≤ c.toNat && c.toNat ≤ 13) || c == ' ' || c.toNat == 133 || c.toNat == 160 ||
  c.toNat == 5760 || (8192 ≤ c.toNat && c.toNat ≤ 8202) ||
  c.toNat == 8232 || c.toNat == 8233 || c.toNat == 8239 ||
  c.toNat == 8287 || c.toNat == 12288

/-- Model of Go `strings.TrimSpace`: drop leading and trailing space
characters. -/
def goTrimSpace (s : String) : String :=
  String.mk (((s.toList.dropWhile goIsSpace).reverse.dropWhile goIsSpace).reverse)

/-- Function `parseInteger` from `manager.go`: empty input or a failed `Atoi` parse
falls back to the default, a successful parse is returned as is. -/
def parseInteger (value : String) (defaultValue : Int) : Int :=
  if value = "" then defaultValue
  else
    match goAtoi value with
    | some parsed => parsed
    | none => defaultValue

/-- Function `parseBoolean` from `manager.go`. -/
def parseBoolean (value : String) (defaultValue : Bool) : Bool :=
  if value = "" then defaultValue
  else
    let lowerValue := goToLower value
    if lowerValue = "true" ∨ lowerValue = "1" ∨ lowerValue = "yes" ∨ lowerValue = "on" then
      true
    else if lowerValue = "false" ∨ lowerValue = "0" ∨ lowerValue = "no" ∨ lowerValue = "off" then
      false
    else defaultValue

/-- Model of Go `strings.Split` with separator `","` on the character
list: a split around each comma, `n` commas giving `n + 1` pieces. -/
def splitCommaChars : List Char → List (List Char)
  | [] => [[]]
  | c :: rest =>
    let r := splitCommaChars rest
    if c = ',' then [] :: r
    else
      match r with
      | [] => [[c]]
      | h :: t => (c :: h) :: t

/-- Model of Go `strings.Split value ","`. -/
def goSplitComma (s : String) : List String :=
  (splitCommaChars s.toList).map String.mk

/-- The split-trim-filter loop of `parseArray`: split on commas
(`strings.Split`), trim each part, keep the non-empty results in order. -/
def parseArrayFiltered (value : String) : List String :=
  (goSplitComma value).filterMap fun part =>
    let trimmed := goTrimSpace part
    if trimmed ≠ "" then some trimmed else none

/-- Function `parseArray` from `manager.go`: empty input yields the default; an input
whose split-trim-filter result is empty also yields the default. -/
def parseArray (value : String) (defaultValue : List String) : List String :=
  if value = "" then defaultValue
  else
    let result := parseArrayFiltered value
    if result = [] then defaultValue else result

/-! Validator (`Manager.Validate`) -/

/-- The violation list accumulated by `Manager.Validate`, in source order.
`urlParseOk` abstracts Go's `net/url.Parse`: `urlParseOk u = true` iff
`url.Parse u` returns a nil error. -/
def validationErrors (urlParseOk : String → Bool) (c : Config) : List String :=
  (if c.Server.Port < DefaultConstants.MinPort ∨ DefaultConstants.MaxPort < c.Server.Port then
    ["port must be between " ++ toString DefaultConstants.MinPort ++ "-" ++
      toString DefaultConstants.MaxPort]
  else []) ++
  (if c.Keys.StartIndex < 0 then ["start index cannot be less than 0"] else []) ++
  (if c.Keys.BlacklistThreshold < 1 then ["blacklist threshold cannot be less than 1"] else []) ++
  (if c.OpenAI.RequestTimeout < DefaultConstants.MinTimeout then
    ["request timeout cannot be less than " ++ toString DefaultConstants.MinTimeout ++ "s"]
  else []) ++
  (if c.OpenAI.BaseURLs = [] then ["at least one upstream API URL is required"] else []) ++
  (c.OpenAI.BaseURLs.filterMap fun baseURL =>
    if urlParseOk baseURL then none
    else some ("invalid upstream API URL format: " ++ baseURL)) ++
  (if c.Performance.MaxConcurrentRequests < 1 then
    ["max concurrent requests cannot be less than 1"]
  else [])

/-- Modelled from the spec: the aggregated `ConfigValidationError` built by
`errors.NewAppErrorWithDetails` (package `gpt-load/internal/errors`, not in
the sources at hand); it carries a message and the joined violation list. -/
structure AppError where
  message : String
  details : String
deriving DecidableEq, Repr

/-- Method `Manager.Validate`: `none` on success, otherwise one aggregated error
whose details join every violation with a semicolon (`strings.Join`). -/
def Validate (urlParseOk : String → Bool) (c : Config) : Option AppError :=
  let errs := validationErrors urlParseOk c
  if errs = [] then none
  else
    some { message := "Configuration validation failed"
           details := String.intercalate ("; ") errs }

/-- The tail of `NewManager`: wrap the assembled snapshot in a manager
(counter starting at zero) and reject it whole if validation fails. -/
def NewManagerFromConfig (urlParseOk : String → Bool) (c : Config) : Except AppError Manager :=
  match Validate urlParseOk c with
  | some e => Except.error e
  | none => Except.ok { config := c, roundRobinCounter := 0 }

/-! Round-robin accessor (`Manager.GetOpenAIConfig`) -/

/-- Method `Manager.GetOpenAIConfig`: returns a copy of the upstream section with
`BaseURL` selected, and the manager after the call (the counter is the only
mutable state).  With more than one upstream URL the counter is incremented
(`atomic.AddUint64`, wrapping at `2 ^ 64`) and the pre-increment value,
reduced modulo the list length, selects the URL; with exactly one URL that
URL is returned and the counter is untouched. -/
def GetOpenAIConfig (m : Manager) : OpenAIConfig × Manager :=
  let config := m.config.OpenAI
  if 1 < config.BaseURLs.length then
    let newCounter := (m.roundRobinCounter + 1) % u64Mod
    let index := (newCounter + (u64Mod - 1)) % u64Mod
    ({ config with BaseURL := config.BaseURLs.getD (index % config.BaseURLs.length) emptyString },
      { m with roundRobinCounter := newCounter })
  else if config.BaseURLs.length = 1 then
    ({ config with BaseURL := config.BaseURLs.getD 0 emptyString }, m)
  else
    (config, m)

/-- The manager after `j` successive calls to `GetOpenAIConfig`. -/
def afterCalls (m : Manager) : Nat → Manager
  | 0 => m
  | j + 1 => afterCalls (GetOpenAIConfig m).2 j

/-- The value returned by the `k`-th call (`k ≥ 1`) in a run of successive
calls to `GetOpenAIConfig` starting from `m`. -/
def nthCall (m : Manager) (k : Nat) : OpenAIConfig :=
  (GetOpenAIConfig (afterCalls m (k - 1))).1

/-- The list of values returned by `k` successive calls to
`GetOpenAIConfig` starting from `m`. -/
def callResults (m : Manager) : Nat → List OpenAIConfig
  | 0 => []
  | k + 1 => (GetOpenAIConfig m).1 :: callResults (GetOpenAIConfig m).2 k

/-- The counter value each of `k` successive calls observes before its
increment (the pre-increment value of `atomic.AddUint64`). -/
def callPreCounters (m : Manager) : Nat → List Nat
  | 0 => []
  | k + 1 => m.roundRobinCounter :: callPreCounters (GetOpenAIConfig m).2 k

/-! Shared concrete configurations -/

/-- A configuration equal to the one `NewManager` assembles when every
environment variable is unset (all documented defaults). -/
def baseValidConfig : Config :=
  { Server := { Port := 7860, Host := "0.0.0.0", ReadTimeout := 120, WriteTimeout := 1800,
                IdleTimeout := 120, GracefulShutdownTimeout := 60 }
    Keys := { APIKeys := [], StartIndex := 0, BlacklistThreshold := 1, MaxRetries := 3 }
    OpenAI := { BaseURL := emptyString, BaseURLs := ["https://api.openai.com"],
                RequestTimeout := 30, ResponseTimeout := 30, IdleConnTimeout := 120 }
    Auth := { Key := emptyString, Enabled := false }
    CORS := { Enabled := true, AllowedOrigins := ["*"],
              AllowedMethods := ["GET", "POST", "PUT", "DELETE", "OPTIONS"],
              AllowedHeaders := ["*"], AllowCredentials := false }
    Performance := { MaxConcurrentRequests := 100, EnableGzip := true }
    Log := { Level := "info", Format := "text", EnableFile := false,
             FilePath := "logs/app.log", EnableRequest := true } }

/-- The default configuration with a three-entry upstream list. -/
def cfg3 : Config :=
  { baseValidConfig with
    OpenAI := { baseValidConfig.OpenAI with BaseURLs := ["a", "b", "c"] } }

/-- A fresh manager (counter zero) over the three-entry upstream list. -/
def mgr3 : Manager := { config := cfg3, roundRobinCounter := 0 }

/-- The URL-parse oracle that accepts every string. -/
def urlAlwaysOk : String → Bool := fun _ => true

/-! Arithmetic and step lemmas for the round-robin selector -/

theorem u64Mod_eq : u64Mod = 18446744073709551616 := by
  norm_num [u64Mod]

theorem u64Mod_pos : 0 < u64Mod := by
  rw [u64Mod_eq]; omega

/-- The pre-increment value recovered by `AddUint64 - 1`: adding one modulo
`2 ^ 64` and then subtracting one in `uint64` arithmetic is the identity on
counters below `2 ^ 64`. -/
theorem u64_index_eq (c : Nat) (hc : c < u64Mod) :
    ((c + 1) % u64Mod + (u64Mod - 1)) % u64Mod = c := by
  rw [u64Mod_eq] at hc ⊢
  omega

/-- One call to `GetOpenAIConfig` over a multi-entry list: the pre-increment
counter selects the URL and the counter advances by one modulo `2 ^ 64`. -/
theorem GetOpenAIConfig_step (cfg : Config) (c : Nat)
    (h2 : 2 ≤ cfg.OpenAI.BaseURLs.length) (hc : c < u64Mod) :
    GetOpenAIConfig { config := cfg, roundRobinCounter := c } =
      ({ cfg.OpenAI with
          BaseURL := cfg.OpenAI.BaseURLs.getD (c % cfg.OpenAI.BaseURLs.length) emptyString },
        { config := cfg, roundRobinCounter := (c + 1) % u64Mod }) := by
  have h1 : 1 < cfg.OpenAI.BaseURLs.length := h2
  simp only [GetOpenAIConfig, if_pos h1]
  rw [u64_index_eq c hc]

/-- The counter after `j` calls over a multi-entry list, in closed form. -/
theorem afterCalls_closed (cfg : Config) (h2 : 2 ≤ cfg.OpenAI.BaseURLs.length) :
    ∀ (j c : Nat),
      afterCalls { config := cfg, roundRobinCounter := c % u64Mod } j =
        { config := cfg, roundRobinCounter := (c + j) % u64Mod } := by
  intro j
  induction j with
  | zero => intro c; rfl
  | succ j ih =>
    intro c
    have hc : c % u64Mod < u64Mod := Nat.mod_lt c u64Mod_pos
    have hstep := GetOpenAIConfig_step cfg (c % u64Mod) h2 hc
    have hmod : (c % u64Mod + 1) % u64Mod = (c + 1) % u64Mod := by
      rw [u64Mod_eq]; omega
    have := ih (c + 1)
    show afterCalls (GetOpenAIConfig
        { config := cfg, roundRobinCounter := c % u64Mod }).2 j = _
    rw [hstep]
    show afterCalls { config := cfg, roundRobinCounter := (c % u64Mod + 1) % u64Mod } j = _
    rw [hmod, this]
    have : c + 1 + j = c + (j + 1) := by omega
    rw [this]

/-- The pre-increment counter values of `j` calls over a multi-entry list,
in closed form. -/
theorem callPreCounters_closed (cfg : Config) (h2 : 2 ≤ cfg.OpenAI.BaseURLs.length) :
    ∀ (j c : Nat),
      callPreCounters { config := cfg, roundRobinCounter := c % u64Mod } j =
        (List.range' c j).map (fun i => i % u64Mod) := by
  intro j
  induction j with
  | zero => intro c; rfl
  | succ j ih =>
    intro c
    have hc : c % u64Mod < u64Mod := Nat.mod_lt c u64Mod_pos
    have hstep := GetOpenAIConfig_step cfg (c % u64Mod) h2 hc
    have hmod : (c % u64Mod + 1) % u64Mod = (c + 1) % u64Mod := by
      rw [u64Mod_eq]; omega
    show Manager.roundRobinCounter _ :: callPreCounters (GetOpenAIConfig
        { config := cfg, roundRobinCounter := c % u64Mod }).2 j = _
    rw [hstep]
    show c % u64Mod ::
        callPreCounters { config := cfg, roundRobinCounter := (c % u64Mod + 1) % u64Mod } j = _
    rw [hmod, ih (c + 1), List.range'_succ, List.map_cons]

/-- The URLs selected by `j` calls over a multi-entry list, in closed form. -/
theorem callResults_closed (cfg : Config) (h2 : 2 ≤ cfg.OpenAI.BaseURLs.length) :
    ∀ (j c : Nat),
      (callResults { config := cfg, roundRobinCounter := c % u64Mod } j).map
          OpenAIConfig.BaseURL =
        (List.range' c j).map
          (fun i => cfg.OpenAI.BaseURLs.getD ((i % u64Mod) % cfg.OpenAI.BaseURLs.length)
            emptyString) := by
  intro j
  induction j with
  | zero => intro c; rfl
  | succ j ih =>
    intro c
    have hc : c % u64Mod < u64Mod := Nat.mod_lt c u64Mod_pos
    have hstep := GetOpenAIConfig_step cfg (c % u64Mod) h2 hc
    have hmod : (c % u64Mod + 1) % u64Mod = (c + 1) % u64Mod := by
      rw [u64Mod_eq]; omega
    show ((GetOpenAIConfig { config := cfg, roundRobinCounter := c % u64Mod }).1 ::
        callResults (GetOpenAIConfig
          { config := cfg, roundRobinCounter := c % u64Mod }).2 j).map
        OpenAIConfig.BaseURL = _
    rw [hstep]
    show cfg.OpenAI.BaseURLs.getD (c % u64Mod % cfg.OpenAI.BaseURLs.length) emptyString ::
        (callResults { config := cfg, roundRobinCounter := (c % u64Mod + 1) % u64Mod } j).map
          OpenAIConfig.BaseURL = _
    rw [hmod, ih (c + 1), List.range'_succ, List.map_cons]

/-! More shared concrete configurations -/

/-- A fresh manager over the default (single-entry) upstream list. -/
def mgr1 : Manager := { config := baseValidConfig, roundRobinCounter := 0 }

/-- The default configuration with the port replaced. -/
def cfgWithPort (p : Int) : Config :=
  { baseValidConfig with Server := { baseValidConfig.Server with Port := p } }

/-- The port violation message produced by `Manager.Validate`
(`fmt.Sprintf` over `DefaultConstants.MinPort` and `MaxPort`). -/
def portRangeMessage : String := "port must be between 1-65535"

/-- The default configuration with an out-of-range port, a negative start
index and an empty upstream list, everything else valid. -/
def cfgThreeViolations : Config :=
  { baseValidConfig with
    Server := { baseValidConfig.Server with Port := 70000 }
    Keys := { baseValidConfig.Keys with StartIndex := -1 }
    OpenAI := { baseValidConfig.OpenAI with BaseURLs := [] } }

/-- The default configuration with negative read, write and idle timeouts,
everything else valid. -/
def cfgNegativeTimeouts : Config :=
  { baseValidConfig with
    Server := { baseValidConfig.Server with
      ReadTimeout := -1, WriteTimeout := -2, IdleTimeout := -3 } }

/-! Claim theorems -/

/-- C4: if the validated configuration's upstream base-URL list has exactly
one entry, every call to `GetOpenAIConfig` returns that entry as the
selected `BaseURL` and leaves the round-robin counter unchanged. -/
theorem GetOpenAIConfig_single_entry (m : Manager) (u : String)
    (h : m.config.OpenAI.BaseURLs = [u]) :
    (GetOpenAIConfig m).1.BaseURL = u ∧
    (GetOpenAIConfig m).2.roundRobinCounter = m.roundRobinCounter := by
  simp [GetOpenAIConfig, h]

/-- Witness for C4: the default single-entry configuration, one call. -/
theorem GetOpenAIConfig_single_entry_witness :
    mgr1.config.OpenAI.BaseURLs = ["https://api.openai.com"] ∧
    (GetOpenAIConfig mgr1).1.BaseURL = "https://api.openai.com" ∧
    (GetOpenAIConfig mgr1).2.roundRobinCounter = mgr1.roundRobinCounter := by
  refine ⟨by decide, ?_, ?_⟩
  · exact (GetOpenAIConfig_single_entry mgr1 ("https://api.openai.com") (by decide)).1
  · exact (GetOpenAIConfig_single_entry mgr1 ("https://api.openai.com") (by decide)).2

/-- C6: port validation uses inclusive bounds `1` and `65535`: ports `0`
and `65536` fail validation with the port violation message, while ports
`7860` and `65535` produce no port violation message. -/
theorem port_bounds_inclusive :
    portRangeMessage ∈ validationErrors urlAlwaysOk (cfgWithPort 0) ∧
    validationErrors urlAlwaysOk (cfgWithPort 0) ≠ [] ∧
    portRangeMessage ∈ validationErrors urlAlwaysOk (cfgWithPort 65536) ∧
    validationErrors urlAlwaysOk (cfgWithPort 65536) ≠ [] ∧
    portRangeMessage ∉ validationErrors urlAlwaysOk (cfgWithPort 7860) ∧
    portRangeMessage ∉ validationErrors urlAlwaysOk (cfgWithPort 65535) := by
  decide

/-- Counterexample to C5: a configuration with negative read, write and
idle timeouts passes validation untouched, so the validator does not
enforce non-negativity of the server timeouts. -/
theorem negative_timeouts_accepted :
    cfgNegativeTimeouts.Server.ReadTimeout < 0 ∧
    cfgNegativeTimeouts.Server.WriteTimeout < 0 ∧
    cfgNegativeTimeouts.Server.IdleTimeout < 0 ∧
    validationErrors urlAlwaysOk cfgNegativeTimeouts = [] ∧
    Validate urlAlwaysOk cfgNegativeTimeouts = none ∧
    NewManagerFromConfig urlAlwaysOk cfgNegativeTimeouts =
      Except.ok { config := cfgNegativeTimeouts, roundRobinCounter := 0 } := by
  refine ⟨by decide, by decide, by decide, by decide, by decide, ?_⟩
  rfl

/-- C5 (amended): the validator never inspects the server read, write or
idle timeouts — its violation list is invariant under arbitrary changes to
those three fields, so negative values are accepted whenever the checked
fields are valid. -/
theorem validator_ignores_server_timeouts (urlParseOk : String → Bool)
    (c : Config) (rt wt it : Int) :
    validationErrors urlParseOk
        { c with Server := { c.Server with
            ReadTimeout := rt, WriteTimeout := wt, IdleTimeout := it } } =
      validationErrors urlParseOk c := rfl

/-- A URL-parse oracle rejecting exactly the string `"://bad"` (Go's
`url.Parse` fails on it with a missing-scheme error). -/
def urlOracleSample : String → Bool := fun s => !(s == "://bad")

/-- The default configuration with one malformed upstream URL alongside a
valid one. -/
def cfgWithBadURL : Config :=
  { baseValidConfig with
    OpenAI := { baseValidConfig.OpenAI with
      BaseURLs := ["https://api.openai.com", "://bad"] } }

/-- C2: the validator runs all checks regardless of earlier failures and
returns one aggregated error carrying every violation; the configuration
with an out-of-range port, a negative start index and an empty upstream
list yields exactly three violation messages; on success the configuration
is returned unchanged inside the fresh manager. -/
theorem validator_aggregates_all (urlParseOk : String → Bool) (c : Config) :
    validationErrors urlParseOk cfgThreeViolations =
      ["port must be between 1-65535", "start index cannot be less than 0",
        "at least one upstream API URL is required"] ∧
    Validate urlParseOk cfgThreeViolations =
      some { message := "Configuration validation failed"
             details := "port must be between 1-65535; start index cannot be less than 0; at least one upstream API URL is required" } ∧
    (validationErrors urlParseOk c = [] →
      NewManagerFromConfig urlParseOk c =
        Except.ok { config := c, roundRobinCounter := 0 }) := by
  refine ⟨by rfl, by rfl, ?_⟩
  intro h
  simp [NewManagerFromConfig, Validate, h]

/-- Witness for C2: the all-defaults configuration validates cleanly and is
handed over unchanged. -/
theorem validator_aggregates_all_witness :
    validationErrors urlAlwaysOk baseValidConfig = [] ∧
    NewManagerFromConfig urlAlwaysOk baseValidConfig =
      Except.ok { config := baseValidConfig, roundRobinCounter := 0 } :=
  ⟨by decide, (validator_aggregates_all urlAlwaysOk baseValidConfig).2.2 (by decide)⟩

/-- C3: whenever the upstream list contains a URL the URL parser rejects —
even alongside valid ones — validation fails and the violation list names
that URL by value. -/
theorem malformed_url_reported (urlParseOk : String → Bool) (c : Config) (u : String)
    (hmem : u ∈ c.OpenAI.BaseURLs) (hbad : urlParseOk u = false) :
    ("invalid upstream API URL format: " ++ u) ∈ validationErrors urlParseOk c ∧
    validationErrors urlParseOk c ≠ [] := by
  have hin : ("invalid upstream API URL format: " ++ u) ∈
      c.OpenAI.BaseURLs.filterMap (fun baseURL =>
        if urlParseOk baseURL then none
        else some ("invalid upstream API URL format: " ++ baseURL)) := by
    refine List.mem_filterMap.mpr ⟨u, hmem, ?_⟩
    rw [hbad]
    rfl
  have hmain : ("invalid upstream API URL format: " ++ u) ∈ validationErrors urlParseOk c := by
    unfold validationErrors
    simp only [List.mem_append]
    tauto
  refine ⟨hmain, ?_⟩
  intro hnil
  rw [hnil] at hmain
  exact (List.not_mem_nil _) hmain

/-- Witness for C3: one malformed URL alongside a valid one is reported by
value and fails validation. -/
theorem malformed_url_reported_witness :
    ("://bad" ∈ cfgWithBadURL.OpenAI.BaseURLs) ∧
    urlOracleSample ("://bad") = false ∧
    ("invalid upstream API URL format: ://bad" ∈
      validationErrors urlOracleSample cfgWithBadURL) ∧
    validationErrors urlOracleSample cfgWithBadURL ≠ [] := by
  refine ⟨by decide, by decide, ?_, ?_⟩
  · exact (malformed_url_reported urlOracleSample cfgWithBadURL ("://bad")
      (by decide) (by decide)).1
  · exact (malformed_url_reported urlOracleSample cfgWithBadURL ("://bad")
      (by decide) (by decide)).2

/-- C8: the list parser returns the default on empty input; it splits on
commas, trims whitespace and drops empty results, so `"a, ,b"` yields
exactly `["a", "b"]`; and whenever the filtered result is empty it falls
back to the default list, never the empty list. -/
theorem parse_array_spec (v : String) (d : List String) :
    parseArray ("") d = d ∧
    parseArray ("a, ,b") d = ["a", "b"] ∧
    (parseArrayFiltered v = [] → parseArray v d = d) := by
  refine ⟨by simp [parseArray], by rfl, ?_⟩
  intro h
  by_cases hv : v = ""
  · simp [parseArray, hv]
  · simp [parseArray, hv, h]

/-- Witness for C8: the all-blank-after-trim input falls back to the
default list. -/
theorem parse_array_spec_witness :
    parseArrayFiltered (" , ,") = [] ∧ parseArray (" , ,") ["x"] = ["x"] :=
  ⟨by decide, (parse_array_spec (" , ,") ["x"]).2.2 (by decide)⟩

/-- C7: the integer parser returns the default on empty input and on any
input `Atoi` rejects, and the parsed integer (no range check against the
configuration bounds) on success; the boolean parser returns the default on
empty input, `true` exactly on a case-insensitive match with the truthy
set, `false` exactly on a match with the falsy set, and the default
otherwise; both parsers are total functions, never raising an error. -/
theorem primitive_parsers_spec (s : String) (d : Int) (n : Int) (db : Bool) :
    parseInteger ("") d = d ∧
    (goAtoi s = none → parseInteger s d = d) ∧
    (goAtoi s = some n → parseInteger s d = n) ∧
    parseBoolean ("") db = db ∧
    (goToLower s ∈ ["true", "1", "yes", "on"] → parseBoolean s db = true) ∧
    (goToLower s ∈ ["false", "0", "no", "off"] → parseBoolean s db = false) ∧
    (goToLower s ∉ ["true", "1", "yes", "on"] →
      goToLower s ∉ ["false", "0", "no", "off"] → parseBoolean s db = db) := by
  refine ⟨by simp [parseInteger], ?_, ?_, by simp [parseBoolean], ?_, ?_, ?_⟩
  · intro h
    by_cases hs : s = ""
    · simp [parseInteger, hs]
    · simp [parseInteger, hs, h]
  · intro h
    have hs : s ≠ "" := by
      intro hs
      rw [hs] at h
      simp [goAtoi] at h
    simp [parseInteger, hs, h]
  · intro h
    have hs : s ≠ "" := by
      intro hs
      rw [hs] at h
      revert h
      decide
    simp only [List.mem_cons, List.not_mem_nil, or_false] at h
    unfold parseBoolean
    rw [if_neg hs]
    rcases h with h | h | h | h <;> simp [h]
  · intro h
    have hs : s ≠ "" := by
      intro hs
      rw [hs] at h
      revert h
      decide
    simp only [List.mem_cons, List.not_mem_nil, or_false] at h
    unfold parseBoolean
    rw [if_neg hs]
    rcases h with h | h | h | h <;> simp [h]
  · intro h1 h2
    by_cases hs : s = ""
    · simp [parseBoolean, hs]
    · simp only [List.mem_cons, List.not_mem_nil, or_false] at h1 h2
      unfold parseBoolean
      rw [if_neg hs]
      push_neg at h1 h2
      rw [if_neg, if_neg]
      · tauto
      · tauto

/-- Witness for C7: a rejected integer input, a parsed negative integer,
case-insensitive truthy and falsy matches, and an unmatched boolean. -/
theorem primitive_parsers_spec_witness :
    goAtoi ("x42") = none ∧ parseInteger ("x42") 7 = 7 ∧
    goAtoi ("-42") = some (-42) ∧ parseInteger ("-42") 7 = -42 ∧
    (goToLower ("YES") ∈ ["true", "1", "yes", "on"]) ∧ parseBoolean ("YES") false = true ∧
    (goToLower ("Off") ∈ ["false", "0", "no", "off"]) ∧ parseBoolean ("Off") true = false ∧
    (goToLower ("maybe") ∉ ["true", "1", "yes", "on"]) ∧ parseBoolean ("maybe") true = true :=
  ⟨by decide,
   (primitive_parsers_spec ("x42") 7 0 false).2.1 (by decide),
   by decide,
   (primitive_parsers_spec ("-42") 7 (-42) false).2.2.1 (by decide),
   by decide,
   (primitive_parsers_spec ("YES") 0 0 false).2.2.2.2.1 (by decide),
   by decide,
   (primitive_parsers_spec ("Off") 0 0 true).2.2.2.2.2.1 (by decide),
   by decide,
   (primitive_parsers_spec ("maybe") 0 0 true).2.2.2.2.2.2 (by decide) (by decide)⟩

/-- Unfolding equation of `nthCall` (kept as a lemma so that goals holding
huge call counts are rewritten without evaluating the iteration). -/
theorem nthCall_eq (m : Manager) (k : Nat) :
    nthCall m k = (GetOpenAIConfig (afterCalls m (k - 1))).1 := rfl

/-- C1 (amended): starting from a zero counter over a list of `n ≥ 2`
upstream URLs, the `k`-th call (`1 ≤ k ≤ 2 ^ 64`) returns
`BaseURLs[(k - 1) mod n]`; in particular nine consecutive calls over the
three-entry list visit each entry three times in cyclic order from index
zero.  (Beyond `2 ^ 64` calls the `uint64` counter wraps, see the
counterexample.) -/
theorem round_robin_kth (cfg : Config) (k : Nat)
    (h2 : 2 ≤ cfg.OpenAI.BaseURLs.length) (hk1 : 1 ≤ k) (hk : k ≤ u64Mod) :
    (nthCall { config := cfg, roundRobinCounter := 0 } k).BaseURL =
      cfg.OpenAI.BaseURLs.getD ((k - 1) % cfg.OpenAI.BaseURLs.length) emptyString ∧
    (callResults mgr3 9).map OpenAIConfig.BaseURL =
      ["a", "b", "c", "a", "b", "c", "a", "b", "c"] := by
  constructor
  · unfold nthCall
    have h0 : (0 : Nat) % u64Mod = 0 := Nat.zero_mod _
    have hcl := afterCalls_closed cfg h2 (k - 1) 0
    rw [h0] at hcl
    rw [hcl]
    have hklt : k - 1 < u64Mod := by
      rw [u64Mod_eq] at hk ⊢
      omega
    have hlt : (0 + (k - 1)) % u64Mod = k - 1 := by
      rw [Nat.zero_add]
      exact Nat.mod_eq_of_lt hklt
    rw [hlt, GetOpenAIConfig_step cfg (k - 1) h2 hklt]
  · decide

/-- Witness for C1: the fifth call over the three-entry list returns the
entry at index `(5 - 1) mod 3 = 1`. -/
theorem round_robin_kth_witness :
    2 ≤ cfg3.OpenAI.BaseURLs.length ∧ 1 ≤ 5 ∧ 5 ≤ u64Mod ∧
    (nthCall { config := cfg3, roundRobinCounter := 0 } 5).BaseURL =
      cfg3.OpenAI.BaseURLs.getD ((5 - 1) % cfg3.OpenAI.BaseURLs.length) emptyString :=
  ⟨by decide, by decide, by rw [u64Mod_eq]; omega,
   (round_robin_kth cfg3 5 (by decide) (by decide) (by rw [u64Mod_eq]; omega)).1⟩

/-- Counterexample to C1 as stated for unbounded `k`: at
`k = 2 ^ 64 + 1` the `uint64` counter has wrapped to zero, so the call
returns entry `0` while `(k - 1) mod 3 = 2 ^ 64 mod 3 = 1` names entry
`1`. -/
theorem round_robin_kth_counterexample :
    ¬ ((nthCall mgr3 (u64Mod + 1)).BaseURL =
        mgr3.config.OpenAI.BaseURLs.getD
          ((u64Mod + 1 - 1) % mgr3.config.OpenAI.BaseURLs.length) emptyString) := by
  have h2 : 2 ≤ cfg3.OpenAI.BaseURLs.length := by decide
  have hm : mgr3 = { config := cfg3, roundRobinCounter := 0 } := rfl
  have h0 : (0 : Nat) % u64Mod = 0 := Nat.zero_mod _
  have hcl := afterCalls_closed cfg3 h2 u64Mod 0
  rw [h0, Nat.zero_add, Nat.mod_self] at hcl
  rw [hm, nthCall_eq]
  rw [show u64Mod + 1 - 1 = u64Mod from by omega]
  rw [hcl]
  rw [GetOpenAIConfig_step cfg3 0 h2 u64Mod_pos]
  rw [u64Mod_eq]
  decide

/-- A configuration with an empty violation list has a non-empty upstream
list (the empty-list check would otherwise have contributed a message). -/
theorem validationErrors_nil_nonempty_baseURLs (urlParseOk : String → Bool) (c : Config)
    (h : validationErrors urlParseOk c = []) : c.OpenAI.BaseURLs ≠ [] := by
  intro hnil
  simp [validationErrors, hnil] at h

/-- A call to `GetOpenAIConfig` never changes the configuration snapshot,
only (at most) the counter. -/
theorem GetOpenAIConfig_preserves_config (m : Manager) :
    (GetOpenAIConfig m).2.config = m.config := by
  unfold GetOpenAIConfig
  by_cases h1 : 1 < m.config.OpenAI.BaseURLs.length
  · simp [h1]
  · by_cases h2 : m.config.OpenAI.BaseURLs.length = 1 <;> simp [h1, h2]

/-- Over a non-empty upstream list, a single call selects a `BaseURL` that
is an element of the list (the selection index is reduced modulo the
length). -/
theorem GetOpenAIConfig_mem (m : Manager) (h : m.config.OpenAI.BaseURLs ≠ []) :
    (GetOpenAIConfig m).1.BaseURL ∈ m.config.OpenAI.BaseURLs := by
  have hpos : 0 < m.config.OpenAI.BaseURLs.length := List.length_pos.mpr h
  unfold GetOpenAIConfig
  by_cases h1 : 1 < m.config.OpenAI.BaseURLs.length
  · simp only [if_pos h1]
    have hidx : ((m.roundRobinCounter + 1) % u64Mod + (u64Mod - 1)) % u64Mod %
        m.config.OpenAI.BaseURLs.length < m.config.OpenAI.BaseURLs.length :=
      Nat.mod_lt _ hpos
    simp only [List.getD_eq_getElem?_getD, List.getElem?_eq_getElem hidx, Option.getD_some]
    exact List.getElem_mem hidx
  · have hlen : m.config.OpenAI.BaseURLs.length = 1 := by omega
    simp only [if_neg h1, if_pos hlen]
    have hidx : 0 < m.config.OpenAI.BaseURLs.length := hpos
    simp only [List.getD_eq_getElem?_getD, List.getElem?_eq_getElem hidx, Option.getD_some]
    exact List.getElem_mem hidx

/-- Every result of any run of successive calls over a non-empty upstream
list selects a member of the list. -/
theorem callResults_mem (k : Nat) :
    ∀ (m : Manager), m.config.OpenAI.BaseURLs ≠ [] →
      ∀ r ∈ callResults m k, r.BaseURL ∈ m.config.OpenAI.BaseURLs := by
  induction k with
  | zero =>
    intro m h r hr
    cases hr
  | succ k ih =>
    intro m h r hr
    unfold callResults at hr
    rcases List.mem_cons.mp hr with hEq | hTail
    · rw [hEq]
      exact GetOpenAIConfig_mem m h
    · have hcfg := GetOpenAIConfig_preserves_config m
      have hne : (GetOpenAIConfig m).2.config.OpenAI.BaseURLs ≠ [] := by
        rw [hcfg]
        exact h
      have hmem := ih (GetOpenAIConfig m).2 hne r hTail
      rw [hcfg] at hmem
      exact hmem

/-- C10: for every manager whose configuration passed validation (hence
has a non-empty upstream list), every value returned along any sequence of
calls to `GetOpenAIConfig` has its `BaseURL` drawn from the configured
list — never an outside URL, never left unset. -/
theorem selection_always_in_list (urlParseOk : String → Bool) (m : Manager)
    (hv : validationErrors urlParseOk m.config = []) (k : Nat) (r : OpenAIConfig)
    (hr : r ∈ callResults m k) :
    r.BaseURL ∈ m.config.OpenAI.BaseURLs :=
  callResults_mem k m (validationErrors_nil_nonempty_baseURLs urlParseOk m.config hv) r hr

/-- Witness for C10: the first call over the validated three-entry
configuration selects a member of the list. -/
theorem selection_always_in_list_witness :
    validationErrors urlAlwaysOk mgr3.config = [] ∧
    ((GetOpenAIConfig mgr3).1 ∈ callResults mgr3 1) ∧
    (GetOpenAIConfig mgr3).1.BaseURL ∈ mgr3.config.OpenAI.BaseURLs :=
  ⟨by decide, by decide,
   selection_always_in_list urlAlwaysOk mgr3 (by decide) 1 ((GetOpenAIConfig mgr3).1)
     (by decide)⟩

/-- The pre-increment counter values of `3 N` calls over the three-entry
list are exactly `0, 1, ..., 3 N - 1` while the counter has not wrapped. -/
theorem callPreCounters_range (N : Nat) (h : 3 * N ≤ u64Mod) :
    callPreCounters mgr3 (3 * N) = List.range' 0 (3 * N) := by
  have h2 : 2 ≤ cfg3.OpenAI.BaseURLs.length := by decide
  have hm : mgr3 = { config := cfg3, roundRobinCounter := 0 } := rfl
  have h0 : (0 : Nat) % u64Mod = 0 := Nat.zero_mod _
  have hcl := callPreCounters_closed cfg3 h2 (3 * N) 0
  rw [h0] at hcl
  rw [hm, hcl]
  have hcong : ∀ i ∈ List.range' 0 (3 * N), i % u64Mod = i := by
    intro i hi
    rw [List.mem_range'_1] at hi
    exact Nat.mod_eq_of_lt (by omega)
  rw [List.map_congr_left hcong, List.map_id']

/-- Counting helper: over the first `3 N` indices, selection modulo three
from the three-entry list hits each member exactly `N` times. -/
theorem count_range'_getD (u : String) (hu : u ∈ cfg3.OpenAI.BaseURLs) :
    ∀ N : Nat,
      ((List.range' 0 (3 * N)).map
        (fun i => cfg3.OpenAI.BaseURLs.getD (i % 3) emptyString)).count u = N := by
  intro N
  induction N with
  | zero => simp
  | succ N ih =>
    have h3 : 3 * (N + 1) = 3 + 3 * N := by ring
    rw [h3, ← List.range'_append_1 0 (3 * N) 3, List.map_append, List.count_append, ih]
    have hz : 0 + 3 * N = 3 * N := Nat.zero_add _
    rw [hz]
    have hr : List.range' (3 * N) 3 = [3 * N, 3 * N + 1, 3 * N + 1 + 1] := by
      simp [List.range'_succ]
    rw [hr]
    have e0 : 3 * N % 3 = 0 := Nat.mul_mod_right 3 N
    have e1 : (3 * N + 1) % 3 = 1 := by omega
    have e2 : (3 * N + 1 + 1) % 3 = 2 := by omega
    simp only [List.map_cons, List.map_nil, e0, e1, e2]
    fin_cases hu <;> simp [List.count_cons] <;> decide

/-- C9 (amended): each call is one indivisible counter update
(`atomic.AddUint64`), so a concurrent execution is an interleaving of
atomic steps on an otherwise read-only manager; along any such execution
of `3 N ≤ 2 ^ 64` calls over the three-entry list, no two calls observe
the same pre-increment counter value, and each entry is selected exactly
`N` times — no duplicate, no skip.  (Beyond `2 ^ 64` total calls the
counter wraps, see the counterexample.) -/
theorem concurrent_round_robin (N : Nat) (h : 3 * N ≤ u64Mod) :
    (callPreCounters mgr3 (3 * N)).Nodup ∧
    ∀ u ∈ cfg3.OpenAI.BaseURLs,
      ((callResults mgr3 (3 * N)).map OpenAIConfig.BaseURL).count u = N := by
  constructor
  · rw [callPreCounters_range N h]
    exact List.nodup_range' 0 (3 * N)
  · intro u hu
    have h2 : 2 ≤ cfg3.OpenAI.BaseURLs.length := by decide
    have hm : mgr3 = { config := cfg3, roundRobinCounter := 0 } := rfl
    have h0 : (0 : Nat) % u64Mod = 0 := Nat.zero_mod _
    have hcl := callResults_closed cfg3 h2 (3 * N) 0
    rw [h0] at hcl
    rw [hm, hcl]
    have hlen : cfg3.OpenAI.BaseURLs.length = 3 := by decide
    have hcong : ∀ i ∈ List.range' 0 (3 * N),
        cfg3.OpenAI.BaseURLs.getD ((i % u64Mod) % cfg3.OpenAI.BaseURLs.length) emptyString =
        cfg3.OpenAI.BaseURLs.getD (i % 3) emptyString := by
      intro i hi
      rw [List.mem_range'_1] at hi
      rw [hlen, Nat.mod_eq_of_lt (show i < u64Mod by omega)]
    rw [List.map_congr_left hcong]
    exact count_range'_getD u hu N

/-- The smallest `N` whose `3 N` calls exceed `2 ^ 64`. -/
def wrapN : Nat := u64Mod / 3 + 1

/-- Counterexample to C9 as stated for unbounded `N`: with
`3 N = 2 ^ 64 + 2` total calls the `uint64` counter wraps, two calls
observe the same pre-increment value `0`, and the per-entry counts are no
longer `N` each. -/
theorem concurrent_round_robin_counterexample :
    ¬ ((callPreCounters mgr3 (3 * wrapN)).Nodup ∧
       ∀ u ∈ cfg3.OpenAI.BaseURLs,
         ((callResults mgr3 (3 * wrapN)).map OpenAIConfig.BaseURL).count u = wrapN) := by
  intro hcontra
  have hnd := hcontra.1
  have h2 : 2 ≤ cfg3.OpenAI.BaseURLs.length := by decide
  have hm : mgr3 = { config := cfg3, roundRobinCounter := 0 } := rfl
  have h0 : (0 : Nat) % u64Mod = 0 := Nat.zero_mod _
  have hcl := callPreCounters_closed cfg3 h2 (3 * wrapN) 0
  rw [h0] at hcl
  rw [hm, hcl] at hnd
  have h3 : 3 * wrapN = u64Mod + 1 + 1 := by
    simp only [show wrapN = u64Mod / 3 + 1 from rfl, u64Mod_eq]
  rw [h3, List.range'_succ, List.map_cons] at hnd
  have hmem : (0 : Nat) ∈ (List.range' (0 + 1) (u64Mod + 1)).map (fun i => i % u64Mod) := by
    refine List.mem_map.mpr ⟨u64Mod, ?_, Nat.mod_self _⟩
    rw [List.mem_range'_1]
    have hpos := u64Mod_pos
    omega
  rcases List.nodup_cons.mp hnd with ⟨hnotmem, _⟩
  rw [Nat.zero_mod] at hnotmem
  exact hnotmem hmem

/-- Witness for C9: six calls (`N = 2`) over the three-entry list observe
pairwise distinct pre-increment values and select each entry twice. -/
theorem concurrent_round_robin_witness :
    3 * 2 ≤ u64Mod ∧
    (callPreCounters mgr3 (3 * 2)).Nodup ∧
    ((callResults mgr3 (3 * 2)).map OpenAIConfig.BaseURL).count ("a") = 2 :=
  ⟨by rw [u64Mod_eq]; omega,
   (concurrent_round_robin 2 (by rw [u64Mod_eq]; omega)).1,
   (concurrent_round_robin 2 (by rw [u64Mod_eq]; omega)).2 ("a") (by decide)⟩
